import Mathlib

/-!
# Verification of the crawl engine of `crawl_site.py`

This file gives a shallow embedding, in Lean 4, of the crawl engine of the
website-builder repository (file `crawl_site.py`), and settles the frozen
claims about it.

Modelling conventions:

* Pure Python functions (`is_safe_url`, `is_internal_link`,
  `url_to_folder_name`) become Lean functions translated line by line from
  the source.  The `urllib.parse` operations the source relies on
  (`urlparse`, `geturl`, `urljoin`, `hostname`) are ported from CPython's
  `urllib/parse.py`; URLs containing `;` path parameters, embedded
  whitespace/control characters or invalid IPv6 bracket syntax are outside
  the modelled fragment (no claim exercises them).
* External capabilities are oracles: DNS resolution (`socket.gethostbyname`)
  is a function `String → Option IPv4` (`none` models `socket.gaierror`);
  the Selenium renderer plus BeautifulSoup extraction is a function
  `String → RenderResult`; `hashlib.md5(...).hexdigest()` is an arbitrary
  function `String → String`; filesystem writes succeed or fail according
  to a `DiskEnv` oracle.
* The crawl loop of `main` (lines 323-379) becomes a step function
  `crawlStep` on an explicit `CrawlState`, iterated with fuel.  The
  source's fetch-failure paths return a four-tuple that the caller's
  five-variable unpacking at line 340 turns into a `ValueError`; this
  unhandled exception, the manifest emission, the `except
  KeyboardInterrupt` handler and the `except Exception` handler
  (lines 386-421) are modelled by `StepResult.crash`, `LoopOutcome` and
  `run_crawl`.
* Machine integers do not occur (Python integers are unbounded); all
  counters are `Nat`.
* Python's `re` module is Unicode-aware: the character class `\w` used by
  `url_to_folder_name` is modelled exactly for code points below 0x100
  (ASCII plus the Latin-1 block); code points at or above 0x100 are treated
  as non-word characters, which no claim exercises.
-/

namespace CrawlSite

/-! ## Character and list utilities (structural recursion only) -/

/-- Split a list at the first occurrence of `c`: returns the part strictly
before and strictly after it, or `none` when `c` does not occur. -/
def splitFirst (c : Char) : List Char → Option (List Char × List Char)
  | [] => none
  | x :: xs =>
    if x == c then some ([], xs)
    else (splitFirst c xs).map (fun p => (x :: p.1, p.2))

/-- ASCII lower-casing of one character (Python `str.lower` restricted to
ASCII, which is all the source applies it to: schemes and hostnames). -/
def lowerChar (c : Char) : Char :=
  if 'A' ≤ c ∧ c ≤ 'Z' then Char.ofNat (c.toNat + 32) else c

def lowerList (l : List Char) : List Char := l.map lowerChar

/-- `pre.isPrefixOf s` on the underlying character lists
(Python `str.startswith`). -/
def strStartsWith (s pre : String) : Bool := pre.data.isPrefixOf s.data

/-- Python `str.endswith`. -/
def strEndsWith (s suf : String) : Bool := suf.data.isSuffixOf s.data

/-- Part of `l` after the last occurrence of `c` (the whole list if `c`
does not occur); Python `str.rpartition(c)[2]`. -/
def afterLast (c : Char) (l : List Char) : List Char :=
  ((l.reverse.takeWhile (fun x => !(x == c))).reverse)

/-- Remove every trailing occurrence of `c`; Python `str.rstrip(c)`. -/
def dropTrailing (c : Char) (l : List Char) : List Char :=
  (l.reverse.dropWhile (fun x => x == c)).reverse

/-- Python `str.rstrip('/')` on a string. -/
def rstripSlashes (s : String) : String := String.mk (dropTrailing '/' s.data)

/-- Split a list on a separator character; Python `str.split(c)`. -/
def splitOnChar (c : Char) : List Char → List (List Char)
  | [] => [[]]
  | x :: xs =>
    if x == c then [] :: splitOnChar c xs
    else
      match splitOnChar c xs with
      | [] => [[x]]
      | h :: t => (x :: h) :: t

/-- Decimal digits of `n`, most significant first, via explicit fuel
(Python `str(n)` for a natural number). -/
def natToDecAux : Nat → Nat → List Char
  | 0, _ => []
  | fuel + 1, n =>
    if n < 10 then [Char.ofNat (48 + n)]
    else natToDecAux fuel (n / 10) ++ [Char.ofNat (48 + n % 10)]

def natToDec (n : Nat) : List Char := natToDecAux (n + 1) n

/-! ## `urllib.parse`: `urlsplit`, `urlunsplit`, `hostname`, `urljoin`

The source manipulates URLs exclusively through `urlparse(...)`,
`._replace(...)`, `.geturl()`, `.hostname`, `.netloc`, `.path`, `.query`,
`.scheme` and `urljoin`.  None of the URLs it builds carry `;` path
parameters, so `urlparse`/`urlunparse` coincide with `urlsplit`/`urlunsplit`
and we model the five-component form. -/

/-- The five URL components of `urllib.parse.SplitResult` used by the
source (`params` omitted: no claim exercises `;` parameters). -/
structure UrlParts where
  scheme : String
  netloc : String
  path : String
  query : String
  fragment : String
deriving Repr, DecidableEq

/-- CPython `scheme_chars`: letters, digits, `+`, `-`, `.`. -/
def schemeChar (c : Char) : Bool :=
  c.isAlpha || c.isDigit || c == '+' || c == '-' || c == '.'

/-- The scheme-detection step of `urlsplit` (per CPython 3.12: the text
before the first `:` must start with an ASCII letter and continue with
`scheme_chars`); returns the lower-cased scheme and the remainder.
`defScheme` is the `scheme` argument, used when the URL carries none. -/
def splitScheme (defScheme : String) (cs : List Char) : List Char × List Char :=
  match splitFirst ':' cs with
  | some (pre, post) =>
    match pre with
    | [] => (defScheme.data, cs)
    | c0 :: crest =>
      if c0.isAlpha && crest.all schemeChar then (lowerList (c0 :: crest), post)
      else (defScheme.data, cs)
  | none => (defScheme.data, cs)

/-- A character that does not terminate the netloc (`_splitnetloc` scans
up to the first `/`, `?` or `#`). -/
def netlocSep (c : Char) : Bool := !(c == '/') && !(c == '?') && !(c == '#')

/-- The netloc-extraction step of `urlsplit`: when the remainder starts
with `//`, the netloc runs to the first `/`, `?` or `#`. -/
def splitNetloc (rest : List Char) : List Char × List Char :=
  if ['/', '/'].isPrefixOf rest then
    ((rest.drop 2).takeWhile netlocSep, (rest.drop 2).dropWhile netlocSep)
  else ([], rest)

/-- Python `url.split(c, 1)` guarded by `if c in url`: the part before the
first occurrence of `c` and the part after it (empty when `c` is absent). -/
def splitAtFirst (c : Char) (l : List Char) : List Char × List Char :=
  match splitFirst c l with
  | some (pre, post) => (pre, post)
  | none => (l, [])

/-- Port of CPython `urllib.parse.urlsplit`: scheme, then netloc, then
fragment (split before query, as in the source), then query. -/
def urlsplitCore (defScheme : String) (cs : List Char) : UrlParts :=
  let sr := splitScheme defScheme cs
  let nr := splitNetloc sr.2
  let pf := splitAtFirst '#' nr.2
  let pq := splitAtFirst '?' pf.1
  ⟨String.mk sr.1, String.mk nr.1, String.mk pq.1, String.mk pq.2,
   String.mk pf.2⟩

/-- `urllib.parse.urlparse` with the default empty scheme. -/
def urlparse (s : String) : UrlParts := urlsplitCore "" s.data

/-- `urllib.parse.urlparse(s, scheme)` with an explicit default scheme. -/
def urlparseWith (defScheme : String) (s : String) : UrlParts :=
  urlsplitCore defScheme s.data

/-- Port of CPython `urllib.parse.urlunsplit`, i.e. `ParseResult.geturl()`
for URLs without `;` parameters. -/
def geturl (p : UrlParts) : String :=
  let url0 := p.path
  let url1 :=
    if p.netloc ≠ "" ∨ strStartsWith url0 "//" then
      let url' := if url0 ≠ "" ∧ ¬ strStartsWith url0 "/" then "/" ++ url0 else url0
      "//" ++ p.netloc ++ url'
    else url0
  let url2 := if p.scheme ≠ "" then p.scheme ++ ":" ++ url1 else url1
  let url3 := if p.query ≠ "" then url2 ++ "?" ++ p.query else url2
  if p.fragment ≠ "" then url3 ++ "#" ++ p.fragment else url3

/-- Port of `ParseResult.hostname`: strip userinfo after the last `@`,
take the part before the port separator (or inside IPv6 brackets),
lower-case; `none` when empty (Python returns `None`). -/
def hostnameOfNetloc (netloc : String) : Option String :=
  let hostinfo := afterLast '@' netloc.data
  let host :=
    match splitFirst '[' hostinfo with
    | some (_, after) => after.takeWhile (fun c => !(c == ']'))
    | none => hostinfo.takeWhile (fun c => !(c == ':'))
  if host = [] then none else some (String.mk (lowerList host))

/-- CPython `urllib.parse.uses_relative`. -/
def uses_relative : List String :=
  ["", "ftp", "http", "gopher", "nntp", "imap", "wais", "file", "https",
   "shttp", "mms", "prospero", "rtsp", "rtspu", "sftp", "svn", "svn+ssh",
   "ws", "wss"]

/-- CPython `urllib.parse.uses_netloc`. -/
def uses_netloc : List String :=
  ["", "ftp", "http", "gopher", "nntp", "telnet", "imap", "wais", "file",
   "mms", "https", "shttp", "snews", "prospero", "rtsp", "rtspu", "rsync",
   "svn", "svn+ssh", "sftp", "nfs", "git", "git+ssh", "ws", "wss",
   "itms-services"]

/-- `segments[1:-1] = filter(None, segments[1:-1])` from CPython `urljoin`:
drop empty strings from all but the first and last element. -/
def filterMiddle (l : List String) : List String :=
  match l with
  | [] => []
  | [a] => [a]
  | a :: rest =>
    a :: ((rest.dropLast.filter (fun s => s ≠ "")) ++ rest.drop (rest.length - 1))

/-- The `..`/`.` resolution loop of CPython `urljoin`. -/
def resolveDots (segments : List String) : List String :=
  segments.foldl
    (fun acc seg =>
      if seg = ".." then acc.dropLast
      else if seg = "." then acc
      else acc ++ [seg]) []

/-- Last element of a list of strings, `""` when empty. -/
def lastD (l : List String) : String := l.getLast?.getD ""

/-- `'/'.join(l)` (structural, so the kernel can evaluate it). -/
def joinSlash : List String → String
  | [] => ""
  | [a] => a
  | a :: b :: rest => a ++ "/" ++ joinSlash (b :: rest)

/-- Port of CPython `urllib.parse.urljoin` (RFC 3986 variant, CPython ≥ 3.5)
for URLs without `;` parameters. -/
def urljoin (base url : String) : String :=
  if base = "" then url
  else if url = "" then base
  else
    let b := urlparse base
    let u := urlparseWith b.scheme url
    if u.scheme ≠ b.scheme ∨ ¬ uses_relative.contains u.scheme then url
    else
      let netlocEarly := uses_netloc.contains u.scheme ∧ u.netloc ≠ ""
      if netlocEarly then geturl u
      else
        let netloc := if uses_netloc.contains u.scheme then b.netloc else u.netloc
        if u.path = "" then
          geturl { scheme := u.scheme, netloc := netloc, path := b.path,
                   query := if u.query ≠ "" then u.query else b.query,
                   fragment := u.fragment }
        else
          let baseParts0 := (splitOnChar '/' b.path.data).map String.mk
          let baseParts :=
            if lastD baseParts0 ≠ "" then baseParts0.dropLast else baseParts0
          let segments :=
            if strStartsWith u.path "/" then (splitOnChar '/' u.path.data).map String.mk
            else filterMiddle (baseParts ++ (splitOnChar '/' u.path.data).map String.mk)
          let resolved0 := resolveDots segments
          let resolved :=
            if lastD segments = "." ∨ lastD segments = ".." then resolved0 ++ [""]
            else resolved0
          let joined := joinSlash resolved
          geturl { scheme := u.scheme, netloc := netloc,
                   path := if joined = "" then "/" else joined,
                   query := u.query, fragment := u.fragment }

/-! ## IPv4 addresses and the Python `ipaddress` classification

`socket.gethostbyname` only ever returns IPv4 dotted-quad strings, so the
resolved address is modelled as four octets.  The classification predicates
are those of CPython's `ipaddress` module for `IPv4Address`. -/

/-- An IPv4 address as four octets (valid when each is `< 256`). -/
structure IPv4 where
  o1 : Nat
  o2 : Nat
  o3 : Nat
  o4 : Nat
deriving Repr, DecidableEq

/-- `str(ipaddress.IPv4Address(...))`: dotted decimal, no leading zeros. -/
def IPv4.str (ip : IPv4) : String :=
  String.mk (natToDec ip.o1 ++ '.' :: natToDec ip.o2 ++ '.' :: natToDec ip.o3
    ++ '.' :: natToDec ip.o4)

/-- `IPv4Address.is_loopback`: `127.0.0.0/8`. -/
def IPv4.is_loopback (ip : IPv4) : Bool := ip.o1 == 127

/-- `IPv4Address.is_link_local`: `169.254.0.0/16`. -/
def IPv4.is_link_local (ip : IPv4) : Bool := ip.o1 == 169 && ip.o2 == 254

/-- `IPv4Address.is_multicast`: `224.0.0.0/4` (first octet 224-239). -/
def IPv4.is_multicast (ip : IPv4) : Bool := 224 ≤ ip.o1 && ip.o1 ≤ 239

/-- `IPv4Address.is_reserved`: `240.0.0.0/4`. -/
def IPv4.is_reserved (ip : IPv4) : Bool := 240 ≤ ip.o1

/-- `IPv4Address.is_private`: membership in CPython's `_private_networks`
list (`0.0.0.0/8`, `10.0.0.0/8`, `127.0.0.0/8`, `169.254.0.0/16`,
`172.16.0.0/12`, `192.0.0.0/29`, `192.0.0.170/31`, `192.0.2.0/24`,
`192.168.0.0/16`, `198.18.0.0/15`, `198.51.100.0/24`, `203.0.113.0/24`,
`240.0.0.0/4`, `255.255.255.255/32`). -/
def IPv4.is_private (ip : IPv4) : Bool :=
  ip.o1 == 0 || ip.o1 == 10 || ip.o1 == 127
    || (ip.o1 == 169 && ip.o2 == 254)
    || (ip.o1 == 172 && 16 ≤ ip.o2 && ip.o2 ≤ 31)
    || (ip.o1 == 192 && ip.o2 == 0 && ip.o3 == 0 && ip.o4 ≤ 7)
    || (ip.o1 == 192 && ip.o2 == 0 && ip.o3 == 0 && (ip.o4 == 170 || ip.o4 == 171))
    || (ip.o1 == 192 && ip.o2 == 0 && ip.o3 == 2)
    || (ip.o1 == 192 && ip.o2 == 168)
    || (ip.o1 == 198 && (ip.o2 == 18 || ip.o2 == 19))
    || (ip.o1 == 198 && ip.o2 == 51 && ip.o3 == 100)
    || (ip.o1 == 203 && ip.o2 == 0 && ip.o3 == 113)
    || 240 ≤ ip.o1

/-- The address `0.0.0.0` used by the source's string comparison. -/
def IPv4.unspecified : IPv4 := ⟨0, 0, 0, 0⟩

/-! ## `is_safe_url` (crawl_site.py lines 29-66)

DNS resolution (`socket.gethostbyname`) is an oracle
`dns : String → Option IPv4`; `none` models `socket.gaierror`. -/

/-- Port of `is_safe_url`.  Structure of the source: parse the URL; reject
when there is no hostname; resolve; reject on DNS failure (fail closed);
reject when the address is private/loopback/reserved; reject when it is
link-local, its string starts with `"169.254."` or `"224."`, or equals
`"0.0.0.0"`; accept otherwise. -/
def is_safe_url (dns : String → Option IPv4) (url : String) : Bool :=
  let parsed := urlparse url
  match hostnameOfNetloc parsed.netloc with
  | none => false
  | some hostname =>
    match dns hostname with
    | none => false
    | some ip =>
      if ip.is_private || ip.is_loopback || ip.is_reserved then false
      else if ip.is_link_local
          || strStartsWith ip.str "169.254."
          || strStartsWith ip.str "224."
          || ip.str == "0.0.0.0" then false
      else true

/-! ## `is_internal_link` (crawl_site.py lines 87-97) -/

/-- Port of `is_internal_link`. -/
def is_internal_link (href base_netloc : String) : Bool :=
  if href == "" || strStartsWith href "mailto:" || strStartsWith href "tel:" then
    false
  else
    let parsed := urlparse href
    if parsed.scheme ≠ "" ∧ ¬ (parsed.scheme = "http" ∨ parsed.scheme = "https") then
      false
    else if parsed.netloc ≠ "" ∧ parsed.netloc ≠ base_netloc then false
    else true

/-! ## `url_to_folder_name` (crawl_site.py lines 177-215)

`hashlib.md5(s.encode()).hexdigest()` is an external deterministic
function, modelled as an oracle `md5 : String → String`. -/

/-- Python `re`'s `\w` class on `str`, modelled exactly for code points
below 0x100 (ASCII alphanumerics, underscore, and the Latin-1 word
characters); code points at or above 0x100 are treated as non-word, a
restriction of the model that no claim exercises. -/
def pyWordChar (c : Char) : Bool :=
  c.isAlpha || c.isDigit || c == '_'
    || (c.toNat == 0xAA || c.toNat == 0xB2 || c.toNat == 0xB3 || c.toNat == 0xB5
        || c.toNat == 0xB9 || c.toNat == 0xBA || c.toNat == 0xBC || c.toNat == 0xBD
        || c.toNat == 0xBE)
    || (0xC0 ≤ c.toNat && c.toNat ≤ 0xFF && !(c.toNat == 0xD7) && !(c.toNat == 0xF7))

/-- `re.sub(r'[^\w\-_]', '_', s)`: keep word characters, `-` and `_`,
replace everything else with `_`. -/
def sanitizeChars (l : List Char) : List Char :=
  l.map (fun c => if pyWordChar c || c == '-' then c else '_')

/-- `re.sub(r'_+', '_', s)`: collapse runs of underscores. -/
def collapseUnderscores : List Char → List Char
  | [] => []
  | [c] => [c]
  | c1 :: c2 :: rest =>
    if c1 == '_' && c2 == '_' then collapseUnderscores (c2 :: rest)
    else c1 :: collapseUnderscores (c2 :: rest)

/-- Python `str.strip('_')`. -/
def stripUnderscores (l : List Char) : List Char :=
  dropTrailing '_' (l.dropWhile (fun c => c == '_'))

/-- The extension-stripping loop over
`['.html', '.htm', '.php', '.asp', '.aspx']` with `break` on first match. -/
def stripCommonExt (name : String) : String :=
  if strEndsWith name ".html" then String.mk (name.data.take (name.data.length - 5))
  else if strEndsWith name ".htm" then String.mk (name.data.take (name.data.length - 4))
  else if strEndsWith name ".php" then String.mk (name.data.take (name.data.length - 4))
  else if strEndsWith name ".asp" then String.mk (name.data.take (name.data.length - 4))
  else if strEndsWith name ".aspx" then String.mk (name.data.take (name.data.length - 5))
  else name

/-- The sanitization pipeline applied to the chosen path segment
(crawl_site.py lines 201-204): character replacement, underscore
collapsing, underscore stripping. -/
def sanitize_segment (name : String) : List Char :=
  stripUnderscores (collapseUnderscores (sanitizeChars name.data))

/-- The folder name computed before the query-hash suffix is applied
(crawl_site.py lines 179-207). -/
def base_folder_name (md5 : String → String) (url_str base_url_str : String) : String :=
  let parsed_url := urlparse url_str
  let normalized_url_path := rstripSlashes parsed_url.path
  let normalized_base_url_path := rstripSlashes (urlparse base_url_str).path
  if normalized_url_path = normalized_base_url_path ∨ normalized_url_path = "" then
    "home"
  else
    let path_segments := (splitOnChar '/' normalized_url_path.data).filter
      (fun seg => seg ≠ [])
    if path_segments = [] then "root_page"
    else
      let folder0 := String.mk (path_segments.getLast?.getD [])
      let stripped := stripCommonExt folder0
      let sanitized := sanitize_segment stripped
      if sanitized = [] then "page_" ++ String.mk ((md5 url_str).data.take 8)
      else String.mk sanitized

/-- Port of `url_to_folder_name`: the base folder name, plus
`_q` + `md5(query)[:6]` when the URL carries a query string
(crawl_site.py lines 209-212). -/
def url_to_folder_name (md5 : String → String) (url_str base_url_str : String) : String :=
  let folder_name := base_folder_name md5 url_str base_url_str
  if (urlparse url_str).query ≠ "" then
    folder_name ++ "_q" ++ String.mk ((md5 (urlparse url_str).query).data.take 6)
  else folder_name

/-! ## `save_page_data` (crawl_site.py lines 217-267)

The filesystem is modelled as the set of existing directories plus the
written files; whether an individual `os.makedirs`/`open(...).write`
succeeds is an oracle (`DiskEnv`).  All five artifact writes sit in one
`try` block in the source, so the first failing write raises and skips
the remaining writes of that page. -/

def COPY_FILENAME : String := "copy.txt"
def CSS_FILENAME : String := "css.txt"
def HTML_FILENAME : String := "page.html"
def IMAGES_FILENAME : String := "images.txt"
def URL_FILENAME : String := "url.txt"

/-- Pure filesystem state: existing directories and written files
(path, content). -/
structure FileSys where
  dirs : List String
  files : List (String × String)
deriving Repr, DecidableEq

/-- Failure oracles for filesystem operations: whether creating a
not-yet-existing directory succeeds, and whether writing a given path
succeeds. -/
structure DiskEnv where
  mkdir_ok : String → Bool
  write_ok : String → Bool

/-- `os.makedirs(d, exist_ok=True)`: succeeds without change when `d`
already exists; otherwise creates it, or fails per the oracle. -/
def makedirs_exist_ok (disk : DiskEnv) (fs : FileSys) (d : String) :
    FileSys × Bool :=
  if fs.dirs.contains d then (fs, true)
  else if disk.mkdir_ok d then ({ fs with dirs := d :: fs.dirs }, true)
  else (fs, false)

/-- One line per image URL (the `images.txt` content). -/
def joinLines : List String → String
  | [] => ""
  | s :: rest => s ++ "\n" ++ joinLines rest

/-- The external-stylesheet comment lines of `css.txt`. -/
def concatCssRefs : List String → String
  | [] => ""
  | u :: rest => "/* Original URL: " ++ u ++ " */\n\n" ++ concatCssRefs rest

/-- The wrapped inline style blocks of `css.txt`. -/
def concatInline : List String → String
  | [] => ""
  | s :: rest => "<style>\n" ++ s ++ "\n</style>\n\n" ++ concatInline rest

/-- The `css.txt` content assembled at crawl_site.py lines 250-258. -/
def css_output_content (css_files inline_styles : List String) : String :=
  (if css_files ≠ [] then
    "/* --- External CSS Files --- */\n" ++ concatCssRefs css_files
   else "")
    ++ (if inline_styles ≠ [] then
      "\n/* --- Inline Styles --- */\n" ++ concatInline inline_styles
    else "")

/-- Sequential artifact writes inside the single `try` block: the first
failing write raises, aborting the remaining writes; already-written files
stay on disk.  Returns the updated filesystem, the artifact names written,
and the overall success flag. -/
def write_artifacts (disk : DiskEnv) (fs : FileSys) (page_dir : String) :
    List (String × String) → FileSys × List String × Bool
  | [] => (fs, [], true)
  | (name, content) :: rest =>
    let path := page_dir ++ "/" ++ name
    if disk.write_ok path then
      let fs' := { fs with files := fs.files ++ [(path, content)] }
      let r := write_artifacts disk fs' page_dir rest
      (r.1, name :: r.2.1, r.2.2)
    else (fs, [], false)

/-- Port of `save_page_data`: create the page folder (idempotently), then
write the five artifacts in source order inside one error scope. -/
def save_page_data (disk : DiskEnv) (fs : FileSys) (site_dir folder_name url html
    text : String) (images css_files inline_styles : List String) :
    FileSys × List String × Bool :=
  let page_dir := site_dir ++ "/" ++ folder_name
  let md := makedirs_exist_ok disk fs page_dir
  if ¬ md.2 then (md.1, [], false)
  else
    write_artifacts disk md.1 page_dir
      [(URL_FILENAME, url), (HTML_FILENAME, html), (COPY_FILENAME, text),
       (IMAGES_FILENAME, joinLines images),
       (CSS_FILENAME, css_output_content css_files inline_styles)]

/-! ## `get_page_content` and the crawl loop of `main`
(crawl_site.py lines 99-157 and 269-429)

The Selenium renderer and the BeautifulSoup extraction pass are external
capabilities: an oracle maps each fetched URL to a page-load timeout, a
load error, a parse failure, or a successfully rendered page together with
its extracted artifacts and anchor hrefs. -/

/-- A successfully rendered and parsed page: the raw HTML, the extracted
text, image URLs, stylesheet URLs, inline style blocks, and the `href`
attributes of its anchor tags (in document order). -/
structure PageData where
  html : String
  text : String
  images : List String
  css_files : List String
  inline_styles : List String
  hrefs : List String
deriving Repr, DecidableEq

/-- Outcome of `driver.get` + BeautifulSoup for one URL. -/
inductive RenderResult where
  | timeout
  | loadError
  | parseError
  | ok (page : PageData)
deriving Repr, DecidableEq

/-- External capabilities of one crawl run. -/
structure CrawlEnv where
  dns : String → Option IPv4
  render : String → RenderResult
  md5 : String → String
  disk : DiskEnv

/-- What `get_page_content` returns, as observed by the caller's
five-variable unpacking at crawl_site.py line 340.  The safety-rejection,
timeout and load-error paths (lines 105, 112, 115) return the four-tuple
`None, None, None, None`; unpacking it into five variables raises
`ValueError`, which the run-level `except Exception` handler (line 417)
turns into a traceback and `sys.exit(1)` — `fatal`.  Only the success
path (line 154) and the parse-failure path (line 157, the five-tuple
`None, set(), "", set(), []`) unpack cleanly; the parse failure reaches
the caller with `html = None` and takes the graceful `else` branch. -/
inductive FetchResult where
  | fatal
  | parseFailed
  | ok (page : PageData)
deriving Repr, DecidableEq

/-- Port of `get_page_content`: the SSRF check runs first, so an unsafe
URL is rejected without touching the renderer — but its return (like the
timeout and load-error returns) is the arity-mismatched four-tuple, hence
`fatal` for the caller. -/
def get_page_content (dns : String → Option IPv4) (render : String → RenderResult)
    (url : String) : FetchResult :=
  if ¬ is_safe_url dns url then FetchResult.fatal
  else
    match render url with
    | RenderResult.timeout => FetchResult.fatal
    | RenderResult.loadError => FetchResult.fatal
    | RenderResult.parseError => FetchResult.parseFailed
    | RenderResult.ok page => FetchResult.ok page

/-- The deduplication key of the crawl loop (crawl_site.py line 328):
the URL with only its fragment removed. -/
def canonical_key (u : String) : String := geturl { urlparse u with fragment := "" }

/-- Configuration of one crawl run after seed normalization
(crawl_site.py lines 279-307). -/
structure CrawlConfig where
  target_url : String
  base_netloc : String
  max_pages : Nat
  crawl_depth : Nat
  site_dir : String
deriving Repr, DecidableEq

/-- Mutable state of the crawl loop: `visited_path_query` (insertion
order retained; a Python set with unordered iteration, but every claim is
order-insensitive), `to_visit_queue`, `queued_path_query_depth`,
`pages_crawled_count`, the per-page save outcomes, and the filesystem. -/
structure CrawlState where
  visited : List String
  queue : List (String × Nat)
  queuedSet : List (String × Nat)
  pages_crawled : Nat
  saved : List (String × Bool)
  fs : FileSys
deriving Repr, DecidableEq

/-- Initial loop state (crawl_site.py lines 311-317). -/
def init_state (cfg : CrawlConfig) : CrawlState :=
  { visited := [], queue := [(cfg.target_url, 1)],
    queuedSet := [(cfg.target_url, 1)], pages_crawled := 0, saved := [],
    fs := { dirs := [cfg.site_dir], files := [] } }

/-- The link-discovery loop (crawl_site.py lines 357-371): each href is
absolutized against the fetched page's fragment-free URL, keyed, and
enqueued when it is internal, not yet visited, and not already queued at
this depth; the queued-set updates take effect within the loop. -/
def enqueue_links (cfg : CrawlConfig) (page_key : String) (depth : Nat)
    (hrefs : List String) (visited : List String) :
    List (String × Nat) × List (String × Nat) →
    List (String × Nat) × List (String × Nat)
  | (queue, queuedSet) =>
    hrefs.foldl
      (fun acc href =>
        let absolute_link := urljoin page_key href
        let link_key := canonical_key absolute_link
        if is_internal_link absolute_link cfg.base_netloc
            && !(visited.contains link_key)
            && !(acc.2.contains (link_key, depth + 1)) then
          (acc.1 ++ [(absolute_link, depth + 1)], (link_key, depth + 1) :: acc.2)
        else acc)
      (queue, queuedSet)

/-- The success branch of one loop iteration (crawl_site.py lines
342-376): mark visited, count the page, save its artifacts (best effort,
result only logged), and when depth allows, discover links. -/
def crawlSuccess (cfg : CrawlConfig) (env : CrawlEnv) (st : CrawlState)
    (url : String) (depth : Nat) (rest : List (String × Nat)) (page : PageData) :
    CrawlState :=
  let key := canonical_key url
  let visited' := st.visited ++ [key]
  let folder := url_to_folder_name env.md5 url cfg.target_url
  let saveResult := save_page_data env.disk st.fs cfg.site_dir folder url
    page.html page.text page.images page.css_files page.inline_styles
  let qq :=
    if depth < cfg.crawl_depth then
      enqueue_links cfg key depth page.hrefs visited' (rest, st.queuedSet)
    else (rest, st.queuedSet)
  { visited := visited', queue := qq.1, queuedSet := qq.2,
    pages_crawled := st.pages_crawled + 1,
    saved := st.saved ++ [(folder, saveResult.2.2)], fs := saveResult.1 }

/-- Outcome of one iteration of the `while` loop: the guard fails and the
loop exits normally (`done`); the iteration's fetch returns the
four-tuple and the five-variable unpack raises `ValueError`, aborting the
whole run through `except Exception` / `sys.exit(1)` (`crash`, carrying
the loop variables at the moment of the exception — the pop at line 324
has already happened); or the iteration completes and the loop continues
(`cont`). -/
inductive StepResult where
  | done
  | crash (st : CrawlState)
  | cont (st : CrawlState)
deriving Repr, DecidableEq

/-- One iteration of the `while` loop (crawl_site.py lines 323-378). -/
def crawlStep (cfg : CrawlConfig) (env : CrawlEnv) (st : CrawlState) :
    StepResult :=
  match st.queue with
  | [] => StepResult.done
  | (current_url_full, current_depth) :: rest =>
    if cfg.max_pages ≤ st.pages_crawled then StepResult.done
    else
      let key := canonical_key current_url_full
      if st.visited.contains key then StepResult.cont { st with queue := rest }
      else if cfg.crawl_depth < current_depth then
        StepResult.cont { st with queue := rest }
      else
        match get_page_content env.dns env.render key with
        | FetchResult.fatal => StepResult.crash { st with queue := rest }
        | FetchResult.parseFailed => StepResult.cont { st with queue := rest }
        | FetchResult.ok page =>
          if page.html = "" then StepResult.cont { st with queue := rest }
          else
            StepResult.cont
              (crawlSuccess cfg env st current_url_full current_depth rest page)

/-- How a crawl loop run ends: the `while` condition failed (normal
completion), an unhandled exception aborted the run (`crashed`, with the
loop variables at that moment), or the model's iteration bound ran out
(`fuelOut`, a modelling artifact: the state after that many iterations of
a still-running loop). -/
inductive LoopOutcome where
  | completed (st : CrawlState)
  | crashed (st : CrawlState)
  | fuelOut (st : CrawlState)
deriving Repr, DecidableEq

/-- The loop variables carried by any loop outcome. -/
def LoopOutcome.state : LoopOutcome → CrawlState
  | LoopOutcome.completed st => st
  | LoopOutcome.crashed st => st
  | LoopOutcome.fuelOut st => st

/-- The crawl loop, iterated with fuel (the loop of the source terminates
because each iteration pops the queue and at most `max_pages` iterations
push; fuel simply bounds the iterations considered). -/
def crawl_loop (cfg : CrawlConfig) (env : CrawlEnv) : Nat → CrawlState → LoopOutcome
  | 0, st => LoopOutcome.fuelOut st
  | fuel + 1, st =>
    match crawlStep cfg env st with
    | StepResult.done => LoopOutcome.completed st
    | StepResult.crash st' => LoopOutcome.crashed st'
    | StepResult.cont st' => crawl_loop cfg env fuel st'

/-- States the crawl loop's variables pass through in a given run,
including the state at the moment of a fatal unpacking crash. -/
inductive Reaches (cfg : CrawlConfig) (env : CrawlEnv) : CrawlState → Prop
  | init : Reaches cfg env (init_state cfg)
  | step {s s' : CrawlState} : Reaches cfg env s →
      crawlStep cfg env s = StepResult.cont s' → Reaches cfg env s'
  | crash {s s' : CrawlState} : Reaches cfg env s →
      crawlStep cfg env s = StepResult.crash s' → Reaches cfg env s'

/-! ## Seed normalization, manifest and interruption (crawl_site.py
lines 279-307 and 386-416) -/

/-- Seed URL normalization (lines 281-284): strip fragment, query and
trailing slashes; when the result is empty, retry with the path forced
to `/`. -/
def normalize_target (raw : String) : String :=
  let parsed := urlparse raw
  let target := rstripSlashes (geturl { parsed with fragment := "", query := "" })
  if target = "" then
    rstripSlashes (geturl { parsed with path := "/", fragment := "", query := "" })
  else target

/-- Seed validation and configuration (lines 297-305): `none` models the
`sys.exit(1)` on a missing scheme or netloc. -/
def make_config (raw : String) (max_pages crawl_depth : Nat) (site_dir : String) :
    Option CrawlConfig :=
  let target := normalize_target raw
  let parsed := urlparse target
  if parsed.scheme = "" ∨ parsed.netloc = "" then none
  else some { target_url := target, base_netloc := parsed.netloc,
              max_pages := max_pages, crawl_depth := crawl_depth,
              site_dir := site_dir }

/-- The crawl manifest (lines 387-402); the `timestamp` field has no
algorithmic content and is omitted. -/
structure Manifest where
  target_url : String
  base_netloc : String
  max_pages : Nat
  crawl_depth : Nat
  pages_crawled : Nat
  site_dir : String
  crawled_pages : List String
  status : String
deriving Repr, DecidableEq

/-- Manifest construction from the final loop state; the only status
literal the source ever writes is `"completed"`. -/
def make_manifest (cfg : CrawlConfig) (st : CrawlState) : Manifest :=
  { target_url := cfg.target_url, base_netloc := cfg.base_netloc,
    max_pages := cfg.max_pages, crawl_depth := cfg.crawl_depth,
    pages_crawled := st.pages_crawled, site_dir := cfg.site_dir,
    crawled_pages := st.visited, status := "completed" }

/-- Outcome of the `try` block of `main`: the loop ran to completion and
the manifest was written (lines 386-412); a `KeyboardInterrupt`
transferred control to the handler at lines 414-416, which logs and
terminates without writing any manifest; or an unhandled exception (the
fetch-failure unpacking `ValueError`) hit `except Exception` at line 417
— traceback and `sys.exit(1)`, again without a manifest.  `fuelExhausted`
is the modelling artifact of running out of iteration fuel. -/
inductive RunResult where
  | completed (manifest : Manifest) (final : CrawlState)
  | interrupted (stateAtInterrupt : CrawlState)
  | crashed (stateAtCrash : CrawlState)
  | fuelExhausted (st : CrawlState)
deriving Repr, DecidableEq

/-- The crawl run with an optional external cancellation: `interrupt_after
= some k` models a `KeyboardInterrupt` delivered while the loop is still
running, after `k` completed iterations; the source's handler skips the
manifest write entirely.  A run that already crashed stays crashed.
Without interruption the manifest is emitted exactly when the loop
completes normally. -/
def run_crawl (cfg : CrawlConfig) (env : CrawlEnv) (fuel : Nat)
    (interrupt_after : Option Nat) : RunResult :=
  match interrupt_after with
  | some k =>
    match crawl_loop cfg env k (init_state cfg) with
    | LoopOutcome.crashed st => RunResult.crashed st
    | out => RunResult.interrupted out.state
  | none =>
    match crawl_loop cfg env fuel (init_state cfg) with
    | LoopOutcome.completed st => RunResult.completed (make_manifest cfg st) st
    | LoopOutcome.crashed st => RunResult.crashed st
    | LoopOutcome.fuelOut st => RunResult.fuelExhausted st

/-- The manifest a run leaves on disk, if any. -/
def emitted_manifest : RunResult → Option Manifest
  | RunResult.completed m _ => some m
  | RunResult.interrupted _ => none
  | RunResult.crashed _ => none
  | RunResult.fuelExhausted _ => none

/-! ## Supporting lemmas -/

theorem char_ofNat_toNat {n : Nat} (h1 : 97 ≤ n) (h2 : n ≤ 122) :
    (Char.ofNat n).toNat = n := by
  have h : n < 55296 ∨ 57343 < n ∧ n < 1114112 := by omega
  simp [Char.ofNat, h, Char.ofNatAux, Char.toNat, UInt32.toNat]

theorem mem_dropTrailing {c x : Char} {l : List Char} (h : x ∈ dropTrailing c l) :
    x ∈ l := by
  unfold dropTrailing at h
  rw [List.mem_reverse] at h
  have h2 := (List.dropWhile_sublist _).subset h
  rwa [List.mem_reverse] at h2

theorem mem_stripUnderscores {x : Char} {l : List Char}
    (h : x ∈ stripUnderscores l) : x ∈ l := by
  unfold stripUnderscores at h
  exact (List.dropWhile_sublist _).subset (mem_dropTrailing h)

theorem collapseUnderscores_sublist : ∀ l : List Char,
    (collapseUnderscores l).Sublist l
  | [] => by simp [collapseUnderscores]
  | [c] => by simp [collapseUnderscores]
  | c1 :: c2 :: rest => by
    unfold collapseUnderscores
    split
    · exact List.Sublist.cons _ (collapseUnderscores_sublist (c2 :: rest))
    · exact List.Sublist.cons₂ _ (collapseUnderscores_sublist (c2 :: rest))

theorem sanitizeChars_mem {x : Char} {l : List Char} (h : x ∈ sanitizeChars l) :
    (pyWordChar x || x == '-') = true := by
  unfold sanitizeChars at h
  rw [List.mem_map] at h
  obtain ⟨c, _, rfl⟩ := h
  split
  · assumption
  · decide

/-- Lower-case hexadecimal digits, the alphabet of
`hashlib.md5(...).hexdigest()`. -/
def hexDigit (c : Char) : Bool := c.isDigit || ('a' ≤ c && c ≤ 'f')

theorem hexDigit_pyWordChar {c : Char} (h : hexDigit c = true) :
    pyWordChar c = true := by
  unfold hexDigit at h
  unfold pyWordChar
  rcases Bool.or_eq_true_iff.mp h with h | h
  · simp [h]
  · have ha : c.isAlpha = true := by
      rw [Bool.and_eq_true] at h
      simp only [decide_eq_true_eq] at h
      obtain ⟨h1, h2⟩ := h
      simp [Char.isAlpha, Char.isLower, Char.isUpper, UInt32.le_def, Char.le_def,
        BitVec.le_def] at *
      omega
    simp [ha]

/-- The spec's claimed folder-name alphabet `[A-Za-z0-9_-]` (ASCII only). -/
def asciiFolderChar (c : Char) : Bool :=
  ('A' ≤ c && c ≤ 'Z') || ('a' ≤ c && c ≤ 'z') || ('0' ≤ c && c ≤ '9')
    || c == '_' || c == '-'

theorem string_append_ne_empty {s t : String} (h : s ≠ "") : s ++ t ≠ "" := by
  intro heq
  apply h
  have hd := congrArg String.data heq
  rw [String.data_append] at hd
  have : s.data = [] := (List.append_eq_nil.mp hd).1
  exact String.ext this

theorem string_all_append {p : Char → Bool} {s t : String} :
    (s ++ t).data.all p = (s.data.all p && t.data.all p) := by
  rw [String.data_append, List.all_append]

/-- Shared concrete md5 oracle for witnesses: a fixed 32-character
lower-case hex digest. -/
def wMd5 : String → String := fun _ => "0123456789abcdef0123456789abcdef"

/-! ## Claim C8: `url_to_folder_name` purity and the query-hash collision law -/

theorem string_mk_ne_empty {l : List Char} (h : l ≠ []) : String.mk l ≠ "" :=
  fun heq => h (congrArg String.data heq)

theorem sanitize_segment_mem {x : Char} {n : String} (h : x ∈ sanitize_segment n) :
    (pyWordChar x || x == '-') = true :=
  sanitizeChars_mem
    ((collapseUnderscores_sublist _).subset (mem_stripUnderscores h))

theorem base_folder_name_cases (md5 : String → String) (u b : String) :
    base_folder_name md5 u b = "home" ∨ base_folder_name md5 u b = "root_page"
    ∨ base_folder_name md5 u b = "page_" ++ String.mk ((md5 u).data.take 8)
    ∨ ∃ seg : String, sanitize_segment seg ≠ [] ∧
        base_folder_name md5 u b = String.mk (sanitize_segment seg) := by
  unfold base_folder_name
  dsimp only
  split
  · exact Or.inl rfl
  · split
    · exact Or.inr (Or.inl rfl)
    · split
      · exact Or.inr (Or.inr (Or.inl rfl))
      · rename_i h
        exact Or.inr (Or.inr (Or.inr ⟨_, h, rfl⟩))

theorem base_folder_name_nonempty (md5 : String → String) (u b : String) :
    base_folder_name md5 u b ≠ "" := by
  rcases base_folder_name_cases md5 u b with h | h | h | ⟨seg, hne, h⟩ <;> rw [h]
  · decide
  · decide
  · exact string_append_ne_empty (by decide)
  · exact string_mk_ne_empty hne

theorem base_folder_name_word (md5 : String → String)
    (hmd5 : ∀ s, (md5 s).data.all hexDigit = true) (u b : String) :
    (base_folder_name md5 u b).data.all (fun c => pyWordChar c || c == '-') = true := by
  rcases base_folder_name_cases md5 u b with h | h | h | ⟨seg, _, h⟩ <;> rw [h]
  · decide
  · decide
  · rw [string_all_append, Bool.and_eq_true]
    refine ⟨by decide, ?_⟩
    rw [List.all_eq_true]
    intro x hx
    have hx2 : x ∈ (md5 u).data := List.mem_of_mem_take hx
    have := List.all_eq_true.mp (hmd5 u) x hx2
    simp [hexDigit_pyWordChar this]
  · rw [List.all_eq_true]
    intro x hx
    exact sanitize_segment_mem hx

/-- **C8** `folderNameFor` is pure (two calls with identical arguments are
identical), and when two URLs share a base folder name but exactly the
first carries a query string, the resolved folder names differ: the
query-bearing URL receives the `_q` + hash suffix
(crawl_site.py lines 209-212). -/
theorem c8_folder_name_pure_and_query_collision (md5 : String → String)
    (u1 u2 b : String) (_hne : u1 ≠ u2)
    (hbase : base_folder_name md5 u1 b = base_folder_name md5 u2 b)
    (hq1 : (urlparse u1).query ≠ "") (hq2 : (urlparse u2).query = "") :
    url_to_folder_name md5 u1 b = url_to_folder_name md5 u1 b ∧
    url_to_folder_name md5 u1 b ≠ url_to_folder_name md5 u2 b := by
  refine ⟨rfl, ?_⟩
  unfold url_to_folder_name
  rw [if_pos hq1, if_neg (by rw [hq2]; exact fun h => h rfl)]
  intro heq
  have hlen := congrArg String.length heq
  rw [← hbase, String.length_append, String.length_append] at hlen
  have h2 : ("_q" : String).length = 2 := rfl
  omega

theorem c8_witness :
    url_to_folder_name wMd5 "https://example.com/about?x=1" "https://example.com" ≠
    url_to_folder_name wMd5 "https://example.com/about" "https://example.com" :=
  (c8_folder_name_pure_and_query_collision wMd5
    "https://example.com/about?x=1" "https://example.com/about"
    "https://example.com" (by decide) (by decide) (by decide) (by decide)).2

/-! ## Claim C9: the sanitizer's output alphabet

The claim asserts the sanitizer replaces every character outside ASCII
`[A-Za-z0-9_-]`.  The source's regex `[^\w\-_]` is Unicode-aware
(Python 3 `re` on `str`), so Latin-1 word characters such as `é` survive
sanitization; the claim fails on `https://example.com/café`. -/

theorem c9_counterexample :
    url_to_folder_name wMd5 "https://example.com/café" "https://example.com"
        = "café" ∧
    (url_to_folder_name wMd5 "https://example.com/café"
        "https://example.com").data.all asciiFolderChar = false := by
  constructor
  · decide
  · decide

/-- **C9 (amended)** For every URL, the folder name returned by
`url_to_folder_name` is non-empty, and each of its characters is a Python
word character (Unicode `\w`, which is wider than ASCII `[A-Za-z0-9]`) or
a hyphen, provided the md5 oracle emits lower-case hex digests. -/
theorem c9_sanitized_folder_name (md5 : String → String)
    (hmd5 : ∀ s, (md5 s).data.all hexDigit = true) (u b : String) :
    url_to_folder_name md5 u b ≠ "" ∧
    (url_to_folder_name md5 u b).data.all (fun c => pyWordChar c || c == '-') = true := by
  have hne := base_folder_name_nonempty md5 u b
  have hall := base_folder_name_word md5 hmd5 u b
  unfold url_to_folder_name
  split
  · constructor
    · exact string_append_ne_empty (string_append_ne_empty hne)
    · rw [string_all_append, string_all_append, Bool.and_eq_true, Bool.and_eq_true]
      refine ⟨⟨hall, by decide⟩, ?_⟩
      rw [List.all_eq_true]
      intro x hx
      have hx2 : x ∈ (md5 (urlparse u).query).data := List.mem_of_mem_take hx
      have := List.all_eq_true.mp (hmd5 _) x hx2
      simp [hexDigit_pyWordChar this]
  · exact ⟨hne, hall⟩

theorem c9_witness :
    url_to_folder_name wMd5 "https://example.com/about us" "https://example.com" ≠ "" ∧
    (url_to_folder_name wMd5 "https://example.com/about us"
        "https://example.com").data.all (fun c => pyWordChar c || c == '-') = true :=
  c9_sanitized_folder_name wMd5
    (fun _ =>
      (by decide :
        ("0123456789abcdef0123456789abcdef" : String).data.all hexDigit = true))
    "https://example.com/about us" "https://example.com"

/-! ## Claim C6: persistence failure semantics

All five artifact writes of `save_page_data` sit in a single `try` block
(crawl_site.py lines 227-267), so the first failing write raises and the
remaining artifacts of that page are never attempted — contrary to the
claimed per-artifact best effort.  What does hold: nothing is rolled
back, the crawl itself continues, and folder creation uses
`exist_ok=True`. -/

/-- A disk oracle whose writes fail exactly on `page.html` paths. -/
def wDisk6 : DiskEnv := ⟨fun _ => true, fun p => !(strEndsWith p "page.html")⟩

theorem c6_counterexample :
    (save_page_data wDisk6 ⟨["site"], []⟩ "site" "home" "u" "<h1>hi</h1>" "hi"
        [] [] []).2.1 = ["url.txt"] ∧
    (save_page_data wDisk6 ⟨["site"], []⟩ "site" "home" "u" "<h1>hi</h1>" "hi"
        [] [] []).2.2 = false ∧
    wDisk6.write_ok "site/home/copy.txt" = true ∧
    wDisk6.write_ok "site/home/images.txt" = true ∧
    wDisk6.write_ok "site/home/css.txt" = true := by
  refine ⟨by decide, by decide, by decide, by decide, by decide⟩

/-- The loop-relevant projection of a crawl state: everything except the
filesystem contents and the per-page save flags. -/
def loop_view (s : CrawlState) :
    List String × List (String × Nat) × List (String × Nat) × Nat :=
  (s.visited, s.queue, s.queuedSet, s.pages_crawled)

/-- The loop-relevant view of a step outcome: which kind of outcome it
was, and the control state it carries — everything except the filesystem
and the save flags. -/
def step_view : StepResult →
    Option (Bool × (List String × List (String × Nat) × List (String × Nat) × Nat))
  | StepResult.done => none
  | StepResult.crash st => some (true, loop_view st)
  | StepResult.cont st => some (false, loop_view st)

theorem write_artifacts_spec (disk : DiskEnv) (pd : String) :
    ∀ (arts : List (String × String)) (fs : FileSys),
    (∃ new, (write_artifacts disk fs pd arts).1.files = fs.files ++ new) ∧
    ∃ k ≤ arts.length,
      (write_artifacts disk fs pd arts).2.1 = (arts.map Prod.fst).take k ∧
      ((write_artifacts disk fs pd arts).2.2 = true ↔ k = arts.length)
  | [], fs => by
    refine ⟨⟨[], by simp [write_artifacts]⟩, 0, by simp [write_artifacts]⟩
  | (name, content) :: rest, fs => by
    by_cases hw : disk.write_ok (pd ++ "/" ++ name) = true
    · obtain ⟨⟨new, hnew⟩, k, hk, hwr, hok⟩ :=
        write_artifacts_spec disk pd rest
          { fs with files := fs.files ++ [(pd ++ "/" ++ name, content)] }
      refine ⟨⟨(pd ++ "/" ++ name, content) :: new, ?_⟩, k + 1, ?_, ?_, ?_⟩
      · simp only [write_artifacts, hw, if_true]
        rw [hnew]
        simp
      · simpa using hk
      · simp only [write_artifacts, hw, if_true]
        rw [hwr]
        simp
      · simp only [write_artifacts, hw, if_true]
        rw [hok]
        simp
    · refine ⟨⟨[], ?_⟩, 0, ?_, ?_, ?_⟩ <;>
        simp [write_artifacts, hw]

/-- **C6 (amended)** Folder creation is idempotent (an existing page
folder is not an error); a failing artifact write aborts the remaining
artifact writes of that page (single error scope) but already-written
artifacts are not rolled back; and the crawl loop's control state is
unaffected by disk outcomes — a save failure never aborts the crawl. -/
theorem c6_persistence_failure_semantics :
    (∀ (disk : DiskEnv) (fs : FileSys) (d : String),
      fs.dirs.contains d = true → makedirs_exist_ok disk fs d = (fs, true))
    ∧ (∀ (disk : DiskEnv) (pd : String) (arts : List (String × String))
        (fs : FileSys),
        (∃ new, (write_artifacts disk fs pd arts).1.files = fs.files ++ new) ∧
        ∃ k ≤ arts.length,
          (write_artifacts disk fs pd arts).2.1 = (arts.map Prod.fst).take k ∧
          ((write_artifacts disk fs pd arts).2.2 = true ↔ k = arts.length))
    ∧ (∀ (cfg : CrawlConfig) (dns : String → Option IPv4)
        (render : String → RenderResult) (md5 : String → String)
        (disk disk' : DiskEnv) (st : CrawlState),
        step_view (crawlStep cfg ⟨dns, render, md5, disk⟩ st) =
        step_view (crawlStep cfg ⟨dns, render, md5, disk'⟩ st)) := by
  refine ⟨?_, ?_, ?_⟩
  · intro disk fs d h
    unfold makedirs_exist_ok
    rw [if_pos h]
  · intro disk pd arts fs
    exact write_artifacts_spec disk pd arts fs
  · intro cfg dns render md5 disk disk' st
    unfold crawlStep
    cases st.queue with
    | nil => rfl
    | cons hd tl =>
      cases hd with
      | mk u d =>
        dsimp only
        split
        · rfl
        · split
          · rfl
          · split
            · rfl
            · cases get_page_content dns render (canonical_key u) with
              | fatal => rfl
              | parseFailed => rfl
              | ok page =>
                dsimp only
                split
                · rfl
                · rfl

theorem c6_witness :
    makedirs_exist_ok wDisk6 ⟨["site", "site/home"], []⟩ "site/home" =
      (⟨["site", "site/home"], []⟩, true) :=
  (c6_persistence_failure_semantics).1 wDisk6 ⟨["site", "site/home"], []⟩
    "site/home" (by decide)

/-! ## Claim C3: the SSRF safety validator

The source rejects private/loopback/reserved/link-local addresses and the
string prefixes `"169.254."`/`"224."` plus `"0.0.0.0"` — but the claimed
blanket "multicast" rejection is false: only `224.0.0.0/8` is caught by
the string prefix test, while multicast addresses with first octet
225-239 (e.g. `239.255.255.250`) pass the validator. -/

theorem is_link_local_private {ip : IPv4} (h : ip.is_link_local = true) :
    ip.is_private = true := by
  unfold IPv4.is_link_local at h
  rw [Bool.and_eq_true, beq_iff_eq, beq_iff_eq] at h
  simp [IPv4.is_private, h.1, h.2]

theorem octet224_not_rejected_by_first_test {ip : IPv4} (h : ip.o1 = 224) :
    (ip.is_private || ip.is_loopback || ip.is_reserved) = false := by
  simp [IPv4.is_private, IPv4.is_loopback, IPv4.is_reserved, h]

theorem octet224_str_starts {ip : IPv4} (h : ip.o1 = 224) :
    strStartsWith ip.str "224." = true := by
  unfold strStartsWith IPv4.str
  rw [h]
  have h224 : natToDec 224 = ['2', '2', '4'] := by decide
  rw [h224]
  simp [List.isPrefixOf]

/-- **C3 (amended)** `is_safe_url` fails closed on DNS failure; it rejects
URLs whose resolved address is private, loopback, reserved or link-local
(which covers the unspecified `0.0.0.0`, contained in `0.0.0.0/8`), and
multicast addresses in `224.0.0.0/8`; and a URL that fails the check never
reaches the renderer.  (Multicast addresses with first octet 225-239 are
*not* rejected — see the counterexample.) -/
theorem c3_safe_url_fail_closed (dns : String → Option IPv4)
    (render : String → RenderResult) (url host : String) (ip : IPv4) :
    (hostnameOfNetloc (urlparse url).netloc = some host → dns host = none →
      is_safe_url dns url = false)
    ∧ (hostnameOfNetloc (urlparse url).netloc = some host → dns host = some ip →
      (ip.is_private || ip.is_loopback || ip.is_reserved || ip.is_link_local) = true →
      is_safe_url dns url = false)
    ∧ (hostnameOfNetloc (urlparse url).netloc = some host → dns host = some ip →
      ip.o1 = 224 → is_safe_url dns url = false)
    ∧ (is_safe_url dns url = false →
      get_page_content dns render url = FetchResult.fatal) := by
  refine ⟨?_, ?_, ?_, ?_⟩
  · intro hh hd
    unfold is_safe_url
    dsimp only
    rw [hh]
    dsimp only
    rw [hd]
  · intro hh hd hrej
    unfold is_safe_url
    dsimp only
    rw [hh]
    dsimp only
    rw [hd]
    dsimp only
    rcases Bool.or_eq_true_iff.mp hrej with hrej | hll
    · rw [if_pos]
      rw [hrej]
    · have hpriv : ip.is_private = true := is_link_local_private hll
      rw [if_pos]
      simp [hpriv]
  · intro hh hd h224
    unfold is_safe_url
    dsimp only
    rw [hh]
    dsimp only
    rw [hd]
    dsimp only
    rw [if_neg, if_pos]
    · simp [octet224_str_starts h224]
    · rw [octet224_not_rejected_by_first_test h224]
      exact fun h => Bool.false_ne_true h
  · intro hblocked
    unfold get_page_content
    rw [hblocked]
    simp

/-- DNS oracle resolving every hostname to the SSDP multicast address
`239.255.255.250`. -/
def wDns3 : String → Option IPv4 := fun _ => some ⟨239, 255, 255, 250⟩

def wPage0 : PageData := ⟨"<html></html>", "", [], [], [], []⟩

def wRenderOk : String → RenderResult := fun _ => RenderResult.ok wPage0

theorem c3_counterexample :
    is_safe_url wDns3 "http://mcast.test/" = true ∧
    IPv4.is_multicast ⟨239, 255, 255, 250⟩ = true ∧
    get_page_content wDns3 wRenderOk "http://mcast.test/" = FetchResult.ok wPage0 := by
  refine ⟨by decide, by decide, by decide⟩

def wDnsNone : String → Option IPv4 := fun _ => none

def wDnsLL : String → Option IPv4 := fun _ => some ⟨169, 254, 169, 254⟩

def wDns224 : String → Option IPv4 := fun _ => some ⟨224, 0, 0, 1⟩

theorem c3_witness :
    is_safe_url wDnsNone "https://nxdomain.example/" = false ∧
    is_safe_url wDnsLL "http://169.254.169.254/" = false ∧
    is_safe_url wDns224 "http://mcast224.example/" = false ∧
    get_page_content wDnsLL wRenderOk "http://169.254.169.254/" = FetchResult.fatal := by
  refine ⟨?_, ?_, ?_, ?_⟩
  · exact (c3_safe_url_fail_closed wDnsNone wRenderOk "https://nxdomain.example/"
      "nxdomain.example" ⟨0, 0, 0, 0⟩).1 (by decide) rfl
  · exact (c3_safe_url_fail_closed wDnsLL wRenderOk "http://169.254.169.254/"
      "169.254.169.254" ⟨169, 254, 169, 254⟩).2.1 (by decide) rfl (by decide)
  · exact (c3_safe_url_fail_closed wDns224 wRenderOk "http://mcast224.example/"
      "mcast224.example" ⟨224, 0, 0, 1⟩).2.2.1 (by decide) rfl rfl
  · exact (c3_safe_url_fail_closed wDnsLL wRenderOk "http://169.254.169.254/"
      "169.254.169.254" ⟨169, 254, 169, 254⟩).2.2.2
      ((c3_safe_url_fail_closed wDnsLL wRenderOk "http://169.254.169.254/"
        "169.254.169.254" ⟨169, 254, 169, 254⟩).2.1 (by decide) rfl (by decide))

/-! ## Claim C1: fetch failures are fatal — a bug in the source

The claim (and the spec's failure-semantics section) say a fetch failure
is non-fatal: logged, the key marked visited, and the loop continues.
The source plainly intends that: `get_page_content` logs each failure and
returns instead of raising, and the `else` branch at lines 377-378 exists
to log a failed target and continue.  But the safety-rejection, timeout
and load-error paths (lines 105, 112, 115) return the four-tuple
`None, None, None, None`, while the success and parse-failure paths
return five values — and the caller unpacks five variables at line 340.
The four-tuple therefore raises `ValueError`, which `except Exception`
at line 417 turns into a traceback and `sys.exit(1)`: the run aborts, no
manifest is written, and the graceful `else` branch is dead code for
these failures.  Only a parse failure after a successful load reaches it
(and even then the key is not added to the visited set). -/

/-- DNS oracle of the witness runs: `example.com` resolves to a public
address, everything else fails. -/
def wDnsEx : String → Option IPv4 :=
  fun h => if h = "example.com" then some ⟨93, 184, 216, 34⟩ else none

/-- A rendered page whose anchors are the given hrefs. -/
def wPageLinks (hs : List String) : PageData :=
  ⟨"<html></html>", "text", [], [], [], hs⟩

def wDiskOk : DiskEnv := ⟨fun _ => true, fun _ => true⟩

def wCfg : CrawlConfig := ⟨"https://example.com", "example.com", 20, 2, "example_com"⟩

/-- Renderer for the C1 run: the seed links to `/a` and `/b`; `/a` times
out; `/b` renders fine. -/
def wRender1 : String → RenderResult := fun u =>
  if u = "https://example.com" then
    RenderResult.ok (wPageLinks ["https://example.com/a", "https://example.com/b"])
  else if u = "https://example.com/b" then RenderResult.ok (wPageLinks [])
  else RenderResult.timeout

def wEnv1 : CrawlEnv := ⟨wDnsEx, wRender1, wMd5, wDiskOk⟩

/-- **C1 (code bug, evaluated at the failing input)** In the run whose
second dequeued target `/a` times out: the fetch produces the fatal
four-tuple, the loop crashes at that iteration — one page crawled, the
still-queued `/b` never fetched, the timed-out key in no visited set —
and the aborted run emits no manifest.  This contradicts the claim's
non-fatal continuation and visited-marking at this input. -/
theorem c1_code_bug_eval :
    get_page_content wEnv1.dns wEnv1.render (canonical_key "https://example.com/a")
        = FetchResult.fatal ∧
    crawl_loop wCfg wEnv1 10 (init_state wCfg) =
      LoopOutcome.crashed ((crawl_loop wCfg wEnv1 10 (init_state wCfg)).state) ∧
    (crawl_loop wCfg wEnv1 10 (init_state wCfg)).state.visited =
        ["https://example.com"] ∧
    (crawl_loop wCfg wEnv1 10 (init_state wCfg)).state.pages_crawled = 1 ∧
    (crawl_loop wCfg wEnv1 10 (init_state wCfg)).state.visited.contains
        (canonical_key "https://example.com/a") = false ∧
    (crawl_loop wCfg wEnv1 10 (init_state wCfg)).state.visited.contains
        (canonical_key "https://example.com/b") = false ∧
    emitted_manifest (run_crawl wCfg wEnv1 10 none) = none := by
  refine ⟨by decide, by decide, by decide, by decide, by decide, by decide, by decide⟩

/-! ## The loop invariants (used by C4, C5, C7) -/

/-- Case analysis of one successful loop iteration. -/
theorem crawlStep_cases {cfg : CrawlConfig} {env : CrawlEnv} {s st' : CrawlState}
    (h : crawlStep cfg env s = StepResult.cont st') :
    ∃ u d rest, s.queue = (u, d) :: rest ∧ s.pages_crawled < cfg.max_pages ∧
      (st' = { s with queue := rest } ∨
       (s.visited.contains (canonical_key u) = false ∧ d ≤ cfg.crawl_depth ∧
        ∃ page : PageData, st' = crawlSuccess cfg env s u d rest page)) := by
  unfold crawlStep at h
  rcases hq : s.queue with _ | ⟨⟨u, d⟩, rest⟩
  · rw [hq] at h
    exact absurd h (by simp)
  · rw [hq] at h
    dsimp only at h
    refine ⟨u, d, rest, rfl, ?_, ?_⟩
    · by_contra hb
      rw [if_pos (by omega)] at h
      exact absurd h (by simp)
    · rw [if_neg] at h
      swap
      · intro hle
        rw [if_pos hle] at h
        exact absurd h (by simp)
      · by_cases hv : s.visited.contains (canonical_key u) = true
        · rw [if_pos hv] at h
          exact Or.inl (StepResult.cont.inj h).symm
        · rw [if_neg hv] at h
          by_cases hdep : cfg.crawl_depth < d
          · rw [if_pos hdep] at h
            exact Or.inl (StepResult.cont.inj h).symm
          · rw [if_neg hdep] at h
            cases hf : get_page_content env.dns env.render (canonical_key u) with
            | fatal =>
              rw [hf] at h
              exact absurd h (by simp)
            | parseFailed =>
              rw [hf] at h
              exact Or.inl (StepResult.cont.inj h).symm
            | ok page =>
              rw [hf] at h
              dsimp only at h
              by_cases hhtml : page.html = ""
              · rw [if_pos hhtml] at h
                exact Or.inl (StepResult.cont.inj h).symm
              · rw [if_neg hhtml] at h
                exact Or.inr ⟨Bool.eq_false_iff.mpr hv, by omega,
                  page, (StepResult.cont.inj h).symm⟩

/-- Case analysis of a crashing iteration: only the fetch of a
not-yet-visited, depth-admissible target can crash, and the crash state
is the popped state with all other loop variables untouched. -/
theorem crawlStep_crash {cfg : CrawlConfig} {env : CrawlEnv} {s st' : CrawlState}
    (h : crawlStep cfg env s = StepResult.crash st') :
    ∃ u d rest, s.queue = (u, d) :: rest ∧ st' = { s with queue := rest } := by
  unfold crawlStep at h
  rcases hq : s.queue with _ | ⟨⟨u, d⟩, rest⟩
  · rw [hq] at h
    exact absurd h (by simp)
  · rw [hq] at h
    dsimp only at h
    refine ⟨u, d, rest, rfl, ?_⟩
    by_cases hb : cfg.max_pages ≤ s.pages_crawled
    · rw [if_pos hb] at h
      exact absurd h (by simp)
    · rw [if_neg hb] at h
      by_cases hv : s.visited.contains (canonical_key u) = true
      · rw [if_pos hv] at h
        exact absurd h (by simp)
      · rw [if_neg hv] at h
        by_cases hdep : cfg.crawl_depth < d
        · rw [if_pos hdep] at h
          exact absurd h (by simp)
        · rw [if_neg hdep] at h
          cases hf : get_page_content env.dns env.render (canonical_key u) with
          | fatal =>
            rw [hf] at h
            exact (StepResult.crash.inj h).symm
          | parseFailed =>
            rw [hf] at h
            exact absurd h (by simp)
          | ok page =>
            rw [hf] at h
            dsimp only at h
            by_cases hhtml : page.html = ""
            · rw [if_pos hhtml] at h
              exact absurd h (by simp)
            · rw [if_neg hhtml] at h
              exact absurd h (by simp)

theorem crawlSuccess_fields (cfg : CrawlConfig) (env : CrawlEnv) (s : CrawlState)
    (u : String) (d : Nat) (rest : List (String × Nat)) (page : PageData) :
    (crawlSuccess cfg env s u d rest page).visited = s.visited ++ [canonical_key u]
    ∧ (crawlSuccess cfg env s u d rest page).pages_crawled = s.pages_crawled + 1
    ∧ (crawlSuccess cfg env s u d rest page).saved.length = s.saved.length + 1
    ∧ (crawlSuccess cfg env s u d rest page).queue =
        (if d < cfg.crawl_depth then
          enqueue_links cfg (canonical_key u) d page.hrefs
            (s.visited ++ [canonical_key u]) (rest, s.queuedSet)
         else (rest, s.queuedSet)).1 := by
  refine ⟨rfl, rfl, by simp [crawlSuccess], rfl⟩

/-- The basic counting invariant of the crawl loop: the visited set has
exactly `pages_crawled` distinct keys, one save is attempted per crawled
page, and the page budget is respected. -/
theorem crawl_invariant {cfg : CrawlConfig} {env : CrawlEnv} {st : CrawlState}
    (h : Reaches cfg env st) :
    st.visited.length = st.pages_crawled ∧ st.pages_crawled ≤ cfg.max_pages ∧
    st.visited.Nodup ∧ st.saved.length = st.pages_crawled := by
  induction h with
  | init => simp [init_state]
  | @crash s st' hr hstep ih =>
    obtain ⟨u, d, rest, hq, rfl⟩ := crawlStep_crash hstep
    exact ih
  | @step s st' hr hstep ih =>
    obtain ⟨u, d, rest, hq, hbudget, hcase⟩ := crawlStep_cases hstep
    rcases hcase with rfl | ⟨hv, hd, page, rfl⟩
    · exact ih
    · obtain ⟨hvis, hpages, hsaved, -⟩ := crawlSuccess_fields cfg env s u d rest page
      have hnotmem : canonical_key u ∉ s.visited := by simpa using hv
      refine ⟨?_, ?_, ?_, ?_⟩
      · rw [hvis, List.length_append, ih.1, hpages]
        rfl
      · rw [hpages]
        omega
      · rw [hvis]
        rw [List.nodup_append]
        exact ⟨ih.2.2.1, List.nodup_singleton _,
          fun a ha hb => by simp at hb; subst hb; exact hnotmem ha⟩
      · rw [hsaved, hpages, ih.2.2.2]

theorem reaches_crawl_loop {cfg : CrawlConfig} {env : CrawlEnv} (n : Nat)
    {st : CrawlState} (h : Reaches cfg env st) :
    Reaches cfg env (crawl_loop cfg env n st).state := by
  induction n generalizing st with
  | zero => exact h
  | succ n ih =>
    unfold crawl_loop
    cases hstep : crawlStep cfg env st with
    | done => exact h
    | crash st' => exact Reaches.crash h hstep
    | cont st' => exact ih (Reaches.step h hstep)

/-! ## Claim C4: the page budget and the manifest counts -/

/-- **C4** In every reachable loop state the visited set has at most
`max_pages` keys; the manifest built from any reachable state lists
exactly `pages_crawled` crawled URLs, at most `max_pages`, without
duplicates. -/
theorem c4_budget_and_manifest (cfg : CrawlConfig) (env : CrawlEnv)
    (st : CrawlState) (h : Reaches cfg env st) :
    st.visited.length ≤ cfg.max_pages ∧
    (make_manifest cfg st).crawled_pages.length = (make_manifest cfg st).pages_crawled ∧
    (make_manifest cfg st).pages_crawled ≤ cfg.max_pages ∧
    (make_manifest cfg st).crawled_pages.Nodup := by
  obtain ⟨h1, h2, h3, -⟩ := crawl_invariant h
  refine ⟨?_, ?_, ?_, ?_⟩
  · rw [h1]
    exact h2
  · exact h1
  · exact h2
  · exact h3

theorem c4_witness :
    (crawl_loop wCfg wEnv1 10 (init_state wCfg)).state.visited.length
      ≤ wCfg.max_pages ∧
    (make_manifest wCfg
        (crawl_loop wCfg wEnv1 10 (init_state wCfg)).state).crawled_pages.length
      = (make_manifest wCfg
          (crawl_loop wCfg wEnv1 10 (init_state wCfg)).state).pages_crawled ∧
    (make_manifest wCfg
        (crawl_loop wCfg wEnv1 10 (init_state wCfg)).state).pages_crawled
      ≤ wCfg.max_pages ∧
    (make_manifest wCfg
        (crawl_loop wCfg wEnv1 10 (init_state wCfg)).state).crawled_pages.Nodup :=
  c4_budget_and_manifest wCfg wEnv1 _ (reaches_crawl_loop 10 Reaches.init)

/-! ## Claim C7: the internal-link classifier and the frontier -/

theorem is_internal_link_netloc {href b : String}
    (h : is_internal_link href b = true) :
    (urlparse href).netloc = "" ∨ (urlparse href).netloc = b := by
  unfold is_internal_link at h
  dsimp only at h
  split_ifs at h with h1 h2 h3
  rcases Classical.em ((urlparse href).netloc = "") with hn | hn
  · exact Or.inl hn
  · rcases Classical.em ((urlparse href).netloc = b) with hb | hb
    · exact Or.inr hb
    · exact absurd ⟨hn, hb⟩ h3

theorem enqueue_links_mem (cfg : CrawlConfig) (page_key : String) (depth : Nat)
    (visited : List String) :
    ∀ (hrefs : List String) (q qs : List (String × Nat)) (u : String) (d : Nat),
    (u, d) ∈ (enqueue_links cfg page_key depth hrefs visited (q, qs)).1 →
    (u, d) ∈ q ∨ is_internal_link u cfg.base_netloc = true := by
  intro hrefs
  induction hrefs with
  | nil =>
    intro q qs u d h
    exact Or.inl (by simpa [enqueue_links] using h)
  | cons href rest ih =>
    intro q qs u d h
    unfold enqueue_links at h
    dsimp only at h
    rw [List.foldl_cons] at h
    by_cases hg : (is_internal_link (urljoin page_key href) cfg.base_netloc
        && !(visited.contains (canonical_key (urljoin page_key href)))
        && !(qs.contains (canonical_key (urljoin page_key href), depth + 1))) = true
    · rw [if_pos hg] at h
      have h' := ih (q ++ [(urljoin page_key href, depth + 1)])
        ((canonical_key (urljoin page_key href), depth + 1) :: qs) u d h
      rcases h' with h' | h'
      · rcases List.mem_append.mp h' with h'' | h''
        · exact Or.inl h''
        · right
          have hpair : (u, d) = (urljoin page_key href, depth + 1) := by
            simpa using h''
          simp only [Bool.and_eq_true] at hg
          rw [(Prod.mk.injEq _ _ _ _).mp hpair |>.1]
          exact hg.1.1
      · exact Or.inr h'
    · rw [if_neg hg] at h
      exact ih q qs u d h

/-- Every URL ever present on the frontier queue of a reachable state has
either no host at all or exactly the crawl's base host. -/
theorem queue_host_invariant {cfg : CrawlConfig} {env : CrawlEnv} {st : CrawlState}
    (h : Reaches cfg env st)
    (hbase : (urlparse cfg.target_url).netloc = cfg.base_netloc) :
    ∀ u d, (u, d) ∈ st.queue →
      (urlparse u).netloc = "" ∨ (urlparse u).netloc = cfg.base_netloc := by
  induction h with
  | init =>
    intro u d hmem
    simp [init_state] at hmem
    rw [hmem.1]
    exact Or.inr hbase
  | @crash s st' hr hstep ih =>
    intro u d hmem
    obtain ⟨u0, d0, rest, hq, rfl⟩ := crawlStep_crash hstep
    exact ih u d (by rw [hq]; exact List.mem_cons_of_mem _ hmem)
  | @step s st' hr hstep ih =>
    intro u d hmem
    obtain ⟨u0, d0, rest, hq, hbudget, hcase⟩ := crawlStep_cases hstep
    rcases hcase with rfl | ⟨hv, hd, page, rfl⟩
    · exact ih u d (by rw [hq]; exact List.mem_cons_of_mem _ hmem)
    · obtain ⟨-, -, -, hqueue⟩ := crawlSuccess_fields cfg env s u0 d0 rest page
      rw [hqueue] at hmem
      split at hmem
      · rcases enqueue_links_mem cfg (canonical_key u0) d0
          (s.visited ++ [canonical_key u0]) page.hrefs rest s.queuedSet u d hmem with
          hmem' | hint
        · exact ih u d (by rw [hq]; exact List.mem_cons_of_mem _ hmem')
        · exact is_internal_link_netloc hint
      · exact ih u d (by rw [hq]; exact List.mem_cons_of_mem _ hmem)

/-- **C7** `is_internal_link` rejects empty, `mailto:` and `tel:` hrefs,
any href with an explicit scheme other than `http`/`https`, and any href
whose host is present and differs from the base host; consequently every
URL ever enqueued on the frontier of a run whose base host is the seed's
host has either no host component or exactly the seed's host — a link
whose host differs from the seed's is never enqueued. -/
theorem c7_internal_links_only (href b : String) (cfg : CrawlConfig)
    (env : CrawlEnv) (st : CrawlState) :
    (href = "" → is_internal_link href b = false)
    ∧ (strStartsWith href "mailto:" = true → is_internal_link href b = false)
    ∧ (strStartsWith href "tel:" = true → is_internal_link href b = false)
    ∧ ((urlparse href).scheme ≠ "" → (urlparse href).scheme ≠ "http" →
        (urlparse href).scheme ≠ "https" → is_internal_link href b = false)
    ∧ ((urlparse href).netloc ≠ "" → (urlparse href).netloc ≠ b →
        is_internal_link href b = false)
    ∧ (Reaches cfg env st → (urlparse cfg.target_url).netloc = cfg.base_netloc →
        ∀ u d, (u, d) ∈ st.queue →
          (urlparse u).netloc = "" ∨ (urlparse u).netloc = cfg.base_netloc) := by
  refine ⟨?_, ?_, ?_, ?_, ?_, ?_⟩
  · intro he
    subst he
    unfold is_internal_link
    rw [if_pos (by simp)]
  · intro hm
    unfold is_internal_link
    rw [if_pos]
    rw [hm]
    simp
  · intro ht
    unfold is_internal_link
    rw [if_pos]
    rw [ht]
    simp
  · intro h1 h2 h3
    unfold is_internal_link
    dsimp only
    split
    · rfl
    · rw [if_pos ⟨h1, fun hor => hor.elim h2 h3⟩]
  · intro h1 h2
    unfold is_internal_link
    dsimp only
    split
    · rfl
    · split
      · rfl
      · rw [if_pos ⟨h1, h2⟩]
  · intro hr hbase
    exact queue_host_invariant hr hbase

theorem c7_witness :
    is_internal_link "mailto:info@example.com" "example.com" = false ∧
    is_internal_link "ftp://example.com/f" "example.com" = false ∧
    is_internal_link "https://other.com/x" "example.com" = false ∧
    ((urlparse "https://example.com").netloc = "" ∨
      (urlparse "https://example.com").netloc = wCfg.base_netloc) := by
  refine ⟨?_, ?_, ?_, ?_⟩
  · exact (c7_internal_links_only "mailto:info@example.com" "example.com"
      wCfg wEnv1 (init_state wCfg)).2.1 (by decide)
  · exact (c7_internal_links_only "ftp://example.com/f" "example.com"
      wCfg wEnv1 (init_state wCfg)).2.2.2.1 (by decide) (by decide) (by decide)
  · exact (c7_internal_links_only "https://other.com/x" "example.com"
      wCfg wEnv1 (init_state wCfg)).2.2.2.2.1 (by decide) (by decide)
  · exact (c7_internal_links_only "" "" wCfg wEnv1 (init_state wCfg)).2.2.2.2.2
      Reaches.init (by decide) "https://example.com" 1 (by decide)

/-! ## Claim C5: interruption skips the manifest

The manifest write (crawl_site.py lines 404-410) sits inside the `try`
block; `except KeyboardInterrupt` (lines 414-416) only logs, so an
interrupted run terminates with *no* manifest on disk, while the page
folders persisted so far remain. -/

/-- Renderer for the interruption scenario: the seed links to three
pages, all of which render fine. -/
def wRender5 : String → RenderResult := fun u =>
  if u = "https://example.com" then
    RenderResult.ok (wPageLinks
      ["https://example.com/p1", "https://example.com/p2", "https://example.com/p3"])
  else RenderResult.ok (wPageLinks [])

def wEnv5 : CrawlEnv := ⟨wDnsEx, wRender5, wMd5, wDiskOk⟩

theorem c5_counterexample :
    emitted_manifest (run_crawl wCfg wEnv5 100 (some 3)) = none ∧
    crawl_loop wCfg wEnv5 3 (init_state wCfg) =
      LoopOutcome.fuelOut ((crawl_loop wCfg wEnv5 3 (init_state wCfg)).state) ∧
    (crawl_loop wCfg wEnv5 3 (init_state wCfg)).state.pages_crawled = 3 ∧
    (crawl_loop wCfg wEnv5 3 (init_state wCfg)).state.saved.length = 3 ∧
    crawlStep wCfg wEnv5 (crawl_loop wCfg wEnv5 3 (init_state wCfg)).state ≠
      StepResult.done := by
  refine ⟨by decide, by decide, by decide, by decide, by decide⟩

/-- **C5 (amended)** An externally cancelled run writes no manifest at
all — the `except KeyboardInterrupt` handler only logs; the `n` pages
already persisted remain on disk (one save attempt per counted page), but
no manifest records them. -/
theorem c5_interrupted_run (cfg : CrawlConfig) (env : CrawlEnv) (fuel k : Nat) :
    emitted_manifest (run_crawl cfg env fuel (some k)) = none ∧
    (crawl_loop cfg env k (init_state cfg)).state.saved.length =
      (crawl_loop cfg env k (init_state cfg)).state.pages_crawled := by
  constructor
  · unfold run_crawl
    dsimp only
    cases hout : crawl_loop cfg env k (init_state cfg) with
    | completed st => rfl
    | crashed st => rfl
    | fuelOut st => rfl
  · exact (crawl_invariant (reaches_crawl_loop k Reaches.init)).2.2.2

/-! ## Claim C2: canonicalization strips only the fragment

The source's deduplication key (crawl_site.py line 328) is
`parsed._replace(fragment="").geturl()`: it removes the fragment, and the
parser lower-cases the scheme — but the host's case and any trailing
slash are preserved, so `/about/` and `/about` are distinct keys and can
both be fetched in one run. -/

/-- Renderer for the C2 run: the seed links to `/about/` and `/about`. -/
def wRender2 : String → RenderResult := fun u =>
  if u = "https://example.com" then
    RenderResult.ok (wPageLinks
      ["https://example.com/about/", "https://example.com/about"])
  else RenderResult.ok (wPageLinks [])

def wEnv2 : CrawlEnv := ⟨wDnsEx, wRender2, wMd5, wDiskOk⟩

theorem c2_counterexample :
    canonical_key "https://example.com/about/" ≠
        canonical_key "https://example.com/about" ∧
    canonical_key "https://EXAMPLE.com/x" ≠ canonical_key "https://example.com/x" ∧
    (crawl_loop wCfg wEnv2 10 (init_state wCfg)).state.visited =
        ["https://example.com", "https://example.com/about/",
         "https://example.com/about"] ∧
    (crawl_loop wCfg wEnv2 10 (init_state wCfg)).state.pages_crawled = 3 := by
  refine ⟨by decide, by decide, by decide, by decide⟩

/-- **C2 (amended)** `canonical_key` is determined by the parsed scheme,
host, path and query alone — two URLs agreeing on those four components
(differing at most in their fragments) share one key — and it preserves
the query: two URLs agreeing on scheme, host and path but with different
queries have different keys. -/
theorem c2_canonical_key_fragment_insensitive_query_preserving :
    (∀ u1 u2 : String,
      (urlparse u1).scheme = (urlparse u2).scheme →
      (urlparse u1).netloc = (urlparse u2).netloc →
      (urlparse u1).path = (urlparse u2).path →
      (urlparse u1).query = (urlparse u2).query →
      canonical_key u1 = canonical_key u2)
    ∧ (∀ u1 u2 : String,
      (urlparse u1).scheme = (urlparse u2).scheme →
      (urlparse u1).netloc = (urlparse u2).netloc →
      (urlparse u1).path = (urlparse u2).path →
      (urlparse u1).query ≠ (urlparse u2).query →
      canonical_key u1 ≠ canonical_key u2) := by
  constructor
  · intro u1 u2 hs hn hp hq
    unfold canonical_key
    dsimp only
    rw [hs, hn, hp, hq]
  · intro u1 u2 hs hn hp hq
    unfold canonical_key geturl
    dsimp only
    rw [hs, hn, hp]
    rw [if_neg (fun h : ("" : String) ≠ "" => h rfl),
      if_neg (fun h : ("" : String) ≠ "" => h rfl)]
    by_cases hq1 : (urlparse u1).query = ""
    · by_cases hq2 : (urlparse u2).query = ""
      · exact absurd (hq1.trans hq2.symm) hq
      · rw [if_neg (show ¬ (urlparse u1).query ≠ "" from fun h => h hq1),
          if_pos (show (urlparse u2).query ≠ "" from hq2)]
        intro heq
        have hlen := congrArg String.length heq
        rw [String.length_append, String.length_append] at hlen
        have h1 : ("?" : String).length = 1 := rfl
        omega
    · by_cases hq2 : (urlparse u2).query = ""
      · rw [if_pos (show (urlparse u1).query ≠ "" from hq1),
          if_neg (show ¬ (urlparse u2).query ≠ "" from fun h => h hq2)]
        intro heq
        have hlen := congrArg String.length heq
        rw [String.length_append, String.length_append] at hlen
        have h1 : ("?" : String).length = 1 := rfl
        omega
      · rw [if_pos (show (urlparse u1).query ≠ "" from hq1),
          if_pos (show (urlparse u2).query ≠ "" from hq2)]
        intro heq
        apply hq
        have hd := congrArg String.data heq
        rw [String.data_append, String.data_append, String.data_append,
          String.data_append] at hd
        exact String.ext (List.append_cancel_left hd)

theorem c2_witness :
    canonical_key "https://example.com/a?x=1#one" =
        canonical_key "https://example.com/a?x=1#two" ∧
    canonical_key "https://example.com/a?x=1" ≠
        canonical_key "https://example.com/a?x=2" :=
  ⟨c2_canonical_key_fragment_insensitive_query_preserving.1
      "https://example.com/a?x=1#one" "https://example.com/a?x=1#two"
      (by decide) (by decide) (by decide) (by decide),
   c2_canonical_key_fragment_insensitive_query_preserving.2
      "https://example.com/a?x=1" "https://example.com/a?x=2"
      (by decide) (by decide) (by decide) (by decide)⟩

/-! ## Claim C10: seed normalization

Supporting lemmas: which characters can appear in the parsed components,
so that re-parsing the normalized seed provably yields empty query and
fragment. -/

theorem splitFirst_eq_none {c : Char} : ∀ {l : List Char}, c ∉ l →
    splitFirst c l = none := by
  intro l
  induction l with
  | nil => intro _; rfl
  | cons x xs ih =>
    intro h
    unfold splitFirst
    have hx : ¬(x == c) = true := by
      simp only [beq_iff_eq]
      intro he
      exact h (he ▸ List.mem_cons_self x xs)
    rw [if_neg hx, ih (fun hm => h (List.mem_cons_of_mem _ hm))]
    rfl

theorem splitFirst_none_not_mem {c : Char} : ∀ {l : List Char},
    splitFirst c l = none → c ∉ l := by
  intro l
  induction l with
  | nil => intro _ hm; exact absurd hm (List.not_mem_nil c)
  | cons x xs ih =>
    intro h hm
    unfold splitFirst at h
    by_cases hx : (x == c) = true
    · rw [if_pos hx] at h
      exact absurd h (by simp)
    · rw [if_neg hx] at h
      rcases List.mem_cons.mp hm with he | hm'
      · exact hx (beq_iff_eq.mpr he.symm)
      · exact ih (Option.map_eq_none'.mp h) hm'

theorem splitFirst_decomp {c : Char} : ∀ {l pre post : List Char},
    splitFirst c l = some (pre, post) → l = pre ++ c :: post ∧ c ∉ pre := by
  intro l
  induction l with
  | nil => intro pre post h; exact absurd h (by simp [splitFirst])
  | cons x xs ih =>
    intro pre post h
    unfold splitFirst at h
    by_cases hx : (x == c) = true
    · rw [if_pos hx] at h
      have h2 := Option.some.inj h
      rw [Prod.ext_iff] at h2
      obtain ⟨h3, h4⟩ := h2
      dsimp only at h3 h4
      subst h3
      subst h4
      rw [beq_iff_eq] at hx
      subst hx
      exact ⟨rfl, List.not_mem_nil _⟩
    · rw [if_neg hx] at h
      obtain ⟨⟨p1, p2⟩, hsp, hmap⟩ := Option.map_eq_some'.mp h
      have h2 : (x :: p1, p2) = (pre, post) := hmap
      rw [Prod.ext_iff] at h2
      obtain ⟨h3, h4⟩ := h2
      dsimp only at h3 h4
      subst h3
      subst h4
      obtain ⟨hdec, hnm⟩ := ih hsp
      refine ⟨by rw [List.cons_append, ← hdec], ?_⟩
      intro hm
      rcases List.mem_cons.mp hm with he | hm'
      · exact hx (beq_iff_eq.mpr he.symm)
      · exact hnm hm'

theorem mem_splitAtFirst_fst {c x : Char} {l : List Char}
    (h : x ∈ (splitAtFirst c l).1) : x ∈ l := by
  unfold splitAtFirst at h
  cases hsp : splitFirst c l with
  | none => rw [hsp] at h; exact h
  | some pp =>
    obtain ⟨pre, post⟩ := pp
    rw [hsp] at h
    dsimp only at h
    rw [(splitFirst_decomp hsp).1]
    exact List.mem_append_left _ h

theorem not_mem_splitAtFirst_fst {c : Char} {l : List Char} :
    c ∉ (splitAtFirst c l).1 := by
  unfold splitAtFirst
  cases hsp : splitFirst c l with
  | none => exact splitFirst_none_not_mem hsp
  | some pp =>
    obtain ⟨pre, post⟩ := pp
    exact (splitFirst_decomp hsp).2

theorem mem_splitScheme_snd {ds : String} {cs : List Char} {x : Char}
    (h : x ∈ (splitScheme ds cs).2) : x ∈ cs := by
  unfold splitScheme at h
  cases hsp : splitFirst ':' cs with
  | none => rw [hsp] at h; exact h
  | some pp =>
    obtain ⟨pre, post⟩ := pp
    rw [hsp] at h
    dsimp only at h
    cases pre with
    | nil => exact h
    | cons c0 crest =>
      dsimp only at h
      split at h
      · rw [(splitFirst_decomp hsp).1]
        exact List.mem_append_right _ (List.mem_cons_of_mem _ h)
      · exact h

theorem mem_splitNetloc_snd {rest : List Char} {x : Char}
    (h : x ∈ (splitNetloc rest).2) : x ∈ rest := by
  unfold splitNetloc at h
  split at h
  · exact (List.drop_sublist 2 rest).subset ((List.dropWhile_sublist _).subset h)
  · exact h

theorem urlparse_fragment_empty {s : String} (h : '#' ∉ s.data) :
    (urlparse s).fragment = "" := by
  unfold urlparse urlsplitCore
  dsimp only
  have h2 : '#' ∉ (splitNetloc (splitScheme "" s.data).2).2 :=
    fun hm => h (mem_splitScheme_snd (mem_splitNetloc_snd hm))
  unfold splitAtFirst
  rw [splitFirst_eq_none h2]

theorem urlparse_query_empty {s : String} (h : '?' ∉ s.data) :
    (urlparse s).query = "" := by
  unfold urlparse urlsplitCore
  dsimp only
  have h2 : '?' ∉ (splitAtFirst '#' (splitNetloc (splitScheme "" s.data).2).2).1 :=
    fun hm =>
      h (mem_splitScheme_snd (mem_splitNetloc_snd (mem_splitAtFirst_fst hm)))
  conv =>
    lhs
    rw [splitAtFirst, splitFirst_eq_none h2]

theorem lowerChar_not_hash_question {y : Char} (hy : schemeChar y = true) :
    lowerChar y ≠ '#' ∧ lowerChar y ≠ '?' := by
  unfold lowerChar
  split
  · rename_i hrange
    obtain ⟨ha, hb⟩ := hrange
    have hn : 65 ≤ y.toNat ∧ y.toNat ≤ 90 := by
      simp [Char.le_def, UInt32.le_def, BitVec.le_def, Char.toNat,
        UInt32.toNat] at ha hb ⊢
      omega
    refine ⟨?_, ?_⟩
    · intro heq
      have ht := congrArg Char.toNat heq
      rw [char_ofNat_toNat (by omega) (by omega)] at ht
      have h35 : ('#' : Char).toNat = 35 := rfl
      rw [h35] at ht
      omega
    · intro heq
      have ht := congrArg Char.toNat heq
      rw [char_ofNat_toNat (by omega) (by omega)] at ht
      have h63 : ('?' : Char).toNat = 63 := rfl
      rw [h63] at ht
      omega
  · constructor <;> intro heq <;> rw [heq] at hy <;> exact absurd hy (by decide)

theorem urlparse_scheme_chars {s : String} {x : Char}
    (h : x ∈ (urlparse s).scheme.data) : x ≠ '#' ∧ x ≠ '?' := by
  unfold urlparse urlsplitCore at h
  dsimp only at h
  unfold splitScheme at h
  cases hsp : splitFirst ':' s.data with
  | none =>
    rw [hsp] at h
    exact absurd h (List.not_mem_nil x)
  | some pp =>
    obtain ⟨pre, post⟩ := pp
    rw [hsp] at h
    dsimp only at h
    cases pre with
    | nil => exact absurd h (List.not_mem_nil x)
    | cons c0 crest =>
      dsimp only at h
      split at h
      · rename_i hvalid
        unfold lowerList at h
        obtain ⟨y, hy, rfl⟩ := List.mem_map.mp h
        have hval2 : c0.isAlpha = true ∧ crest.all schemeChar = true := by
          simpa [Bool.and_eq_true] using hvalid
        have hsy : schemeChar y = true := by
          rcases List.mem_cons.mp hy with rfl | hy'
          · unfold schemeChar
            rw [hval2.1]
            rfl
          · exact List.all_eq_true.mp hval2.2 y hy'
        exact lowerChar_not_hash_question hsy
      · exact absurd h (List.not_mem_nil x)

theorem urlparse_netloc_chars {s : String} {x : Char}
    (h : x ∈ (urlparse s).netloc.data) : x ≠ '#' ∧ x ≠ '?' := by
  unfold urlparse urlsplitCore at h
  dsimp only at h
  unfold splitNetloc at h
  split at h
  · have hsep : netlocSep x = true := List.mem_takeWhile_imp h
    unfold netlocSep at hsep
    simp only [Bool.and_eq_true, Bool.not_eq_true', beq_eq_false_iff_ne] at hsep
    exact ⟨hsep.2, hsep.1.2⟩
  · exact absurd h (List.not_mem_nil x)

theorem urlparse_path_chars {s : String} {x : Char}
    (h : x ∈ (urlparse s).path.data) : x ≠ '#' ∧ x ≠ '?' := by
  unfold urlparse urlsplitCore at h
  dsimp only at h
  constructor
  · intro he
    subst he
    exact not_mem_splitAtFirst_fst (mem_splitAtFirst_fst h)
  · intro he
    subst he
    exact not_mem_splitAtFirst_fst h

/-- Characters of the reassembled URL: when query and fragment are empty
and no component contains `#` or `?`, neither does `geturl`'s output. -/
theorem geturl_chars {p : UrlParts}
    (hs : ∀ x ∈ p.scheme.data, x ≠ '#' ∧ x ≠ '?')
    (hn : ∀ x ∈ p.netloc.data, x ≠ '#' ∧ x ≠ '?')
    (hp : ∀ x ∈ p.path.data, x ≠ '#' ∧ x ≠ '?')
    (hq : p.query = "") (hf : p.fragment = "") :
    ∀ x ∈ (geturl p).data, x ≠ '#' ∧ x ≠ '?' := by
  have hss : ∀ x ∈ (("//" : String)).data, x ≠ '#' ∧ x ≠ '?' := by decide
  have hs1 : ∀ x ∈ (("/" : String)).data, x ≠ '#' ∧ x ≠ '?' := by decide
  have hsc : ∀ x ∈ ((":" : String)).data, x ≠ '#' ∧ x ≠ '?' := by decide
  unfold geturl
  dsimp only
  rw [hq, hf]
  rw [if_neg (fun h : ("" : String) ≠ "" => h rfl),
    if_neg (fun h : ("" : String) ≠ "" => h rfl)]
  intro x hx
  split at hx
  · rw [String.data_append, String.data_append] at hx
    rcases List.mem_append.mp hx with hx | hx
    · rcases List.mem_append.mp hx with hx | hx
      · exact hs x hx
      · exact hsc x hx
    · split at hx
      · rw [String.data_append, String.data_append] at hx
        rcases List.mem_append.mp hx with hx | hx
        · rcases List.mem_append.mp hx with hx | hx
          · exact hss x hx
          · exact hn x hx
        · split at hx
          · rw [String.data_append] at hx
            rcases List.mem_append.mp hx with hx | hx
            · exact hs1 x hx
            · exact hp x hx
          · exact hp x hx
      · exact hp x hx
  · split at hx
    · rw [String.data_append, String.data_append] at hx
      rcases List.mem_append.mp hx with hx | hx
      · rcases List.mem_append.mp hx with hx | hx
        · exact hss x hx
        · exact hn x hx
      · split at hx
        · rw [String.data_append] at hx
          rcases List.mem_append.mp hx with hx | hx
          · exact hs1 x hx
          · exact hp x hx
        · exact hp x hx
    · exact hp x hx

theorem dropWhile_head_false {p : Char → Bool} : ∀ {l : List Char} {a : Char}
    {t : List Char}, l.dropWhile p = a :: t → p a = false := by
  intro l
  induction l with
  | nil => intro a t h; exact absurd h (by simp)
  | cons x xs ih =>
    intro a t h
    rw [List.dropWhile_cons] at h
    split at h
    · exact ih h
    · rename_i hp
      injection h with h1 h2
      subst h1
      exact Bool.eq_false_iff.mpr hp

theorem rstripSlashes_not_endswith (s : String) :
    strEndsWith (rstripSlashes s) "/" = false := by
  unfold strEndsWith rstripSlashes dropTrailing List.isSuffixOf
  dsimp only
  rw [List.reverse_reverse]
  cases hd : List.dropWhile (fun x => x == '/') s.data.reverse with
  | nil => rfl
  | cons a t =>
    have ha := dropWhile_head_false hd
    have ha2 : ('/' == a) = false := by
      rw [beq_eq_false_iff_ne] at ha ⊢
      exact fun h => ha h.symm
    simp [List.isPrefixOf, ha2]

theorem normalize_target_chars (raw : String) :
    ∀ x ∈ (normalize_target raw).data, x ≠ '#' ∧ x ≠ '?' := by
  unfold normalize_target
  dsimp only
  intro x hx
  split at hx
  · refine geturl_chars ?_ ?_ ?_ rfl rfl x (mem_dropTrailing hx)
    · exact fun y hy => urlparse_scheme_chars hy
    · exact fun y hy => urlparse_netloc_chars hy
    · have hsl : ∀ y ∈ (("/" : String)).data, y ≠ '#' ∧ y ≠ '?' := by decide
      exact fun y hy => hsl y hy
  · refine geturl_chars ?_ ?_ ?_ rfl rfl x (mem_dropTrailing hx)
    · exact fun y hy => urlparse_scheme_chars hy
    · exact fun y hy => urlparse_netloc_chars hy
    · exact fun y hy => urlparse_path_chars hy

/-- **C10** Seed normalization strips the fragment, the whole query
string and all trailing slashes: the configured target URL is the
normalized seed, it ends in no slash, re-parsing it yields empty query
and fragment, the frontier is seeded with exactly this URL at depth 1,
and the canonical key the crawl fetches for it is likewise query-free. -/
theorem c10_seed_normalization (raw : String) (mp d : Nat) (sd : String)
    (cfg : CrawlConfig) (hcfg : make_config raw mp d sd = some cfg) :
    cfg.target_url = normalize_target raw ∧
    strEndsWith (normalize_target raw) "/" = false ∧
    (urlparse (normalize_target raw)).query = "" ∧
    (urlparse (normalize_target raw)).fragment = "" ∧
    (init_state cfg).queue = [(normalize_target raw, 1)] ∧
    (urlparse (canonical_key (normalize_target raw))).query = "" := by
  have htarget : cfg.target_url = normalize_target raw := by
    unfold make_config at hcfg
    dsimp only at hcfg
    split at hcfg
    · exact absurd hcfg (by simp)
    · exact congrArg CrawlConfig.target_url (Option.some.inj hcfg).symm
  have hq : (urlparse (normalize_target raw)).query = "" :=
    urlparse_query_empty (fun hm => (normalize_target_chars raw _ hm).2 rfl)
  have hf : (urlparse (normalize_target raw)).fragment = "" :=
    urlparse_fragment_empty (fun hm => (normalize_target_chars raw _ hm).1 rfl)
  have hslash : strEndsWith (normalize_target raw) "/" = false := by
    unfold normalize_target
    dsimp only
    split
    · exact rstripSlashes_not_endswith _
    · exact rstripSlashes_not_endswith _
  refine ⟨htarget, hslash, hq, hf, ?_, ?_⟩
  · unfold init_state
    rw [htarget]
  · apply urlparse_query_empty
    intro hm
    have hchars : ∀ x ∈ (canonical_key (normalize_target raw)).data,
        x ≠ '#' ∧ x ≠ '?' := by
      unfold canonical_key
      dsimp only
      refine geturl_chars ?_ ?_ ?_ hq rfl
      · exact fun y hy => urlparse_scheme_chars hy
      · exact fun y hy => urlparse_netloc_chars hy
      · exact fun y hy => urlparse_path_chars hy
    exact (hchars _ hm).2 rfl

/-- The configuration produced from the seed
`https://example.com/a/?q=1#f` with the default limits. -/
def wCfg2 : CrawlConfig :=
  ⟨"https://example.com/a", "example.com", 20, 2, "example_com"⟩

theorem c10_witness :
    wCfg2.target_url = normalize_target "https://example.com/a/?q=1#f" ∧
    strEndsWith (normalize_target "https://example.com/a/?q=1#f") "/" = false ∧
    (urlparse (normalize_target "https://example.com/a/?q=1#f")).query = "" ∧
    (urlparse (normalize_target "https://example.com/a/?q=1#f")).fragment = "" ∧
    (init_state wCfg2).queue = [(normalize_target "https://example.com/a/?q=1#f", 1)] ∧
    (urlparse (canonical_key (normalize_target "https://example.com/a/?q=1#f"))).query
      = "" :=
  c10_seed_normalization "https://example.com/a/?q=1#f" 20 2 "example_com" wCfg2
    (by decide)

end CrawlSite
